import Mathlib

/-!
Verification of the session-learning extraction pipeline
(`plugins/k8s-troubleshooter/scripts/extract_learnings.py`).

The Python script is shallowly embedded: strings are Lean `String`
(Python `str` indexing/slicing is by characters, matched here by
`List Char` operations on `String.data`); optional values are `Option`;
Python dicts with a fixed key set become structures; `re` patterns used
by the script are hand-compiled to character-list functions that follow
the backtracking semantics of the concrete patterns.
-/

/-- Python `\s` on the ASCII range (the script only ever feeds ASCII
whitespace into these positions): space, tab, LF, CR, VT, FF. -/
def pyWs (c : Char) : Bool :=
  c == ' ' || c == '\t' || c == '\n' || c == '\r' || c.toNat == 11 || c.toNat == 12

/-- Match a literal prefix; on success return the remainder. -/
def dropLit : List Char → List Char → Option (List Char)
  | [], s => some s
  | _ :: _, [] => none
  | a :: as, b :: bs => if a = b then dropLit as bs else none

/-- Tests whether `s` starts with `pat`. -/
def startsWithL : List Char → List Char → Bool
  | [], _ => true
  | _ :: _, [] => false
  | a :: as, b :: bs => a == b && startsWithL as bs

/-- Python `pat in s` (substring containment). -/
def hasSubL (pat : List Char) : List Char → Bool
  | [] => startsWithL pat []
  | c :: cs => startsWithL pat (c :: cs) || hasSubL pat cs

/-- Number of positions of `s` at which `pat` occurs. -/
def countSubL (pat : List Char) : List Char → Nat
  | [] => if startsWithL pat [] then 1 else 0
  | c :: cs => (if startsWithL pat (c :: cs) then 1 else 0) + countSubL pat cs

/-- Python `str.strip()` (ASCII whitespace at both ends). -/
def pyStrip (s : List Char) : List Char :=
  ((s.dropWhile pyWs).reverse.dropWhile pyWs).reverse

/-- Python `sub in s` on `String`. -/
def pyIn (sub s : String) : Bool := hasSubL sub.data s.data

/-- Occurrence count of `sub` in `s` (used to state uniqueness of blocks). -/
def countSubS (sub s : String) : Nat := countSubL sub.data s.data

/-- Python `str.lower()`; the classifier keywords are ASCII, where
`Char.toLower` agrees with Python. -/
def pyLower (s : String) : String := ⟨s.data.map Char.toLower⟩

/-- Python slice `s[:n]` on a string (first `n` characters). -/
def pyTake (n : Nat) (s : String) : String := ⟨s.data.take n⟩

/-- Python `len(s)` on a string (number of characters). -/
def pyLen (s : String) : Nat := s.data.length

/-- The session record built by `SessionLearningExtractor.analyze_session`
(source lines 24–35): a dict with this fixed key set, every value
explicitly initialised to `None` / `[]`. -/
structure Learning where
  date : Option String
  jira_ticket : Option String
  problem_description : Option String
  investigation : Option String
  root_cause : Option String
  solution : Option String
  resources_modified : List String
  key_learnings : List String
  prevention : Option String
  namespaces : List String
deriving DecidableEq

/-- The record with every field at its explicit absent/empty default
(source lines 24–35). -/
def emptyLearning : Learning :=
  ⟨none, none, none, none, none, none, [], [], none, []⟩

/-- Source lines 92–94: `(learning.get('problem_description') or '').lower()`
and likewise for the root cause, joined with a single space. -/
def combinedText (l : Learning) : String :=
  pyLower (l.problem_description.getD "") ++ " " ++ pyLower (l.root_cause.getD "")

/-- Embeds `SessionLearningExtractor._categorize_problem` (source lines 90–118):
the ordered `if/elif` chain over substring tests of the combined text. -/
def _categorize_problem (l : Learning) : String :=
  let combined := combinedText l
  if pyIn "oom" combined || pyIn "out of memory" combined || pyIn "memory limit" combined then
    "Memory / OOM Issues"
  else if pyIn "crashloop" combined || pyIn "crash" combined then
    "Pod CrashLoopBackOff"
  else if pyIn "image" combined && (pyIn "pull" combined || pyIn "not found" combined) then
    "Image Pull Errors"
  else if pyIn "pending" combined || pyIn "scheduling" combined then
    "Pod Scheduling Issues"
  else if pyIn "network" combined || pyIn "dns" combined || pyIn "connection" combined then
    "Network / DNS Issues"
  else if pyIn "argocd" combined || pyIn "sync" combined then
    "ArgoCD Sync Issues"
  else if pyIn "tekton" combined || pyIn "pipeline" combined then
    "Tekton Pipeline Issues"
  else if pyIn "crossplane" combined then
    "Crossplane Issues"
  else if pyIn "storage" combined || pyIn "pvc" combined || pyIn "volume" combined then
    "Storage / PVC Issues"
  else if pyIn "permission" combined || pyIn "rbac" combined || pyIn "forbidden" combined then
    "RBAC / Permission Issues"
  else
    "Configuration Issues"

/-- First-match-wins evaluation of an ordered rule table, with the
default fallback category of source line 118. -/
def applyRules : List ((String → Bool) × String) → String → String
  | [], _ => "Configuration Issues"
  | (p, cat) :: rest, c => if p c then cat else applyRules rest c

/-- The classifier rule table as the spec states it (§4.3): an ORDERED
list of keyword-set predicates paired with the category the code
returns for them. -/
def specRules : List ((String → Bool) × String) :=
  [ (fun c => pyIn "oom" c || pyIn "out of memory" c || pyIn "memory limit" c,
      "Memory / OOM Issues"),
    (fun c => pyIn "crashloop" c || pyIn "crash" c, "Pod CrashLoopBackOff"),
    (fun c => pyIn "image" c && (pyIn "pull" c || pyIn "not found" c), "Image Pull Errors"),
    (fun c => pyIn "pending" c || pyIn "scheduling" c, "Pod Scheduling Issues"),
    (fun c => pyIn "network" c || pyIn "dns" c || pyIn "connection" c, "Network / DNS Issues"),
    (fun c => pyIn "argocd" c || pyIn "sync" c, "ArgoCD Sync Issues"),
    (fun c => pyIn "tekton" c || pyIn "pipeline" c, "Tekton Pipeline Issues"),
    (fun c => pyIn "crossplane" c, "Crossplane Issues"),
    (fun c => pyIn "storage" c || pyIn "pvc" c || pyIn "volume" c, "Storage / PVC Issues"),
    (fun c => pyIn "permission" c || pyIn "rbac" c || pyIn "forbidden" c,
      "RBAC / Permission Issues") ]

/-! ## Section extraction

`SessionLearningExtractor._extract_section` (source lines 82–88) runs
`re.search(r'##\s+NAME\s*\n(.+?)(?=\n##|\Z)', content, re.DOTALL)` and
returns `match.group(1).strip()` (or `None` when there is no match).
The pattern is hand-compiled below, preserving the matching semantics of the engine:
leftmost match position wins; `\s+` is greedy (the section names all
begin with a non-whitespace character, so greediness fixes the split);
`\s*\n` greedily consumes whitespace and backtracks so that the last
consumed character is a newline and at least one character remains for
the lazy group; the lazy `(.+?)` (DOTALL) captures at least one
character and stops at the first position followed by `\n##`, or takes
everything to the end of the input. -/

/-- The remainder starts with the two-character stop `\n##`. -/
def nlHH : List Char → Bool
  | a :: b :: c :: _ => a == '\n' && b == '#' && c == '#'
  | _ => false

/-- Characters up to (not including) the first position at which `\n##`
follows; the whole list when no such position exists. -/
def takeUntilStop : List Char → List Char
  | [] => []
  | c :: cs => if nlHH (c :: cs) then [] else c :: takeUntilStop cs

/-- Some position of the list is followed by `\n##`. -/
def hasNlHH : List Char → Bool
  | [] => false
  | c :: cs => nlHH (c :: cs) || hasNlHH cs

/-- Models `\s*\n` with a nonempty continuation: greedily consume whitespace,
backtracking so that the last consumed character is `'\n'` and the
remainder is nonempty (the lazy `(.+?)` needs at least one character);
`none` when no amount of backtracking succeeds. -/
def wsNl (s : List Char) : Option (List Char) :=
  let u := s.takeWhile pyWs
  let v := s.drop u.length
  let b := (u.reverse.takeWhile (fun c => c ≠ '\n')).reverse
  if b.length = u.length then
    none
  else if b ++ v = [] then
    let u2 := u.take (u.length - 1)
    let b2 := (u2.reverse.takeWhile (fun c => c ≠ '\n')).reverse
    if b2.length = u2.length then none else some (b2 ++ ['\n'])
  else
    some (b ++ v)

/-- Build `group(1)` from the text after `\s*\n`: the group is lazy and
needs at least one character, so it is the head followed by everything
up to the first `\n##` stop. -/
def capResult : Option (List Char) → Option (List Char)
  | some (x :: xs) => some (x :: takeUntilStop xs)
  | _ => none

/-- Match `##\s+NAME\s*\n(.+?)(?=\n##|\Z)` at the start of `s`,
returning `group(1)`. -/
def sectionMatchAt (name s : List Char) : Option (List Char) :=
  match dropLit ['#', '#'] s with
  | none => none
  | some s1 =>
    let w := s1.takeWhile pyWs
    if w = [] then none
    else
      match dropLit name (s1.drop w.length) with
      | none => none
      | some s2 => capResult (wsNl s2)

/-- Models `re.search`: try every start position left to right. -/
def searchSection (name : List Char) : List Char → Option (List Char)
  | [] => none
  | c :: cs =>
    match sectionMatchAt name (c :: cs) with
    | some cap => some cap
    | none => searchSection name cs

/-- Embeds `SessionLearningExtractor._extract_section` (source lines 82–88). -/
def _extract_section (content name : String) : Option String :=
  (searchSection name.data content.data).map fun cap => String.mk (pyStrip cap)

/-! ## Summary-file metadata

Source lines 43–48 run `re.search(r'KEY\s+(.+)', content)` for the keys
`Date:`, `Jira Ticket:`, `Affected Namespaces:` and keep
`match.group(1).strip()`. `.+` has no DOTALL flag, so the greedy group
is a maximal nonempty run of non-newline characters; `\s+` greedily
consumes whitespace (newlines included) and backtracks until the next
character is not a newline. -/

/-- Match `KEY\s+(.+)` at the start of `s`, returning `group(1)`. -/
def metaMatchAt (key s : List Char) : Option (List Char) :=
  match dropLit key s with
  | none => none
  | some rest =>
    let u := rest.takeWhile pyWs
    if u = [] then
      none
    else if rest.drop u.length ≠ [] then
      some ((rest.drop u.length).takeWhile (fun c => c ≠ '\n'))
    else
      let ks := (List.range u.length).filter fun k =>
        decide (1 ≤ k) && (u.get? k != some '\n')
      match ks.getLast? with
      | some k => some ((u.drop k).takeWhile (fun c => c ≠ '\n'))
      | none => none

/-- Models `re.search` for the metadata pattern: leftmost start position whose
full pattern (key, whitespace, nonempty line remainder) matches. -/
def metaSearch (key : List Char) : List Char → Option (List Char)
  | [] => none
  | c :: cs =>
    match metaMatchAt key (c :: cs) with
    | some cap => some cap
    | none => metaSearch key cs

/-- One `if match := re.search(r'KEY\s+(.+)', content): group(1).strip()`
step of source lines 43–48. -/
def searchMeta (key content : String) : Option String :=
  (metaSearch key.data content.data).map fun cap => String.mk (pyStrip cap)

/-! ## Splitting helpers -/

/-- Python `str.split()` accumulator: whitespace-separated words,
empties dropped. -/
def splitWsAux (cur : List Char) : List Char → List (List Char)
  | [] => if cur = [] then [] else [cur.reverse]
  | c :: cs =>
    if pyWs c then
      if cur = [] then splitWsAux [] cs else cur.reverse :: splitWsAux [] cs
    else
      splitWsAux (c :: cur) cs

/-- Python `str.split()` (no separator argument). -/
def pySplit (s : String) : List String := (splitWsAux [] s.data).map String.mk

/-- Python `str.split('\n')` accumulator: split at every newline,
keeping empty pieces. -/
def splitNlAux (cur : List Char) : List Char → List (List Char)
  | [] => [cur.reverse]
  | c :: cs =>
    if c = '\n' then cur.reverse :: splitNlAux [] cs else splitNlAux (c :: cur) cs

/-- Python `str.split('\n')`. -/
def splitNl (s : List Char) : List (List Char) := splitNlAux [] s

/-- A character Python `str.strip('- ')` removes: `'-'` or `' '`. -/
def dashSp (c : Char) : Bool := c == '-' || c == ' '

/-- Python `line.strip('- ')`: remove `'-'` and `' '` characters from
both ends. -/
def stripDashSp (l : List Char) : List Char :=
  ((l.dropWhile dashSp).reverse.dropWhile dashSp).reverse

/-- The bullet-list comprehension of source lines 65–69 and 74–78:
lines of the section whose stripped form starts with `-`, each mapped
to `line.strip('- ').strip()`, in source order. -/
def bulletItems (sec : String) : List String :=
  ((splitNl sec.data).filter fun ln => startsWithL ['-'] (pyStrip ln)).map
    fun ln => String.mk (pyStrip (stripDashSp ln))

/-! ## The session parser -/

/-- The summary-file half of `analyze_session` (source lines 38–48),
applied to the text of the summary file. -/
def parseSummary (content : String) : Learning :=
  { emptyLearning with
    date := searchMeta "Date:" content
    jira_ticket := searchMeta "Jira Ticket:" content
    namespaces :=
      match searchMeta "Affected Namespaces:" content with
      | some v => pySplit v
      | none => [] }

/-- Embeds `SessionLearningExtractor.analyze_session` (source lines 22–80).
A missing file is `none` (the `Path.exists()` guards); section fields
are assigned whatever `_extract_section` returns; the two bullet lists
are filled only when their section text is truthy (present and
nonempty). -/
def analyze_session (summary report : Option String) : Learning :=
  let l1 := match summary with
    | none => emptyLearning
    | some content => parseSummary content
  match report with
  | none => l1
  | some content =>
    { l1 with
      problem_description := _extract_section content "Problem Description"
      investigation := _extract_section content "Investigation"
      root_cause := _extract_section content "Root Cause"
      solution := _extract_section content "Solution"
      prevention := _extract_section content "Prevention"
      resources_modified :=
        match _extract_section content "Resources Modified" with
        | some sec => if sec = "" then [] else bulletItems sec
        | none => []
      key_learnings :=
        match _extract_section content "Key Learnings" with
        | some sec => if sec = "" then [] else bulletItems sec
        | none => [] }

/-! ## Aggregation

`SessionLearningExtractor.extract_patterns` (source lines 120–142).
The two `defaultdict`s become insertion-ordered association lists
(Python dicts preserve insertion order), with get-or-insert-default
update functions. -/

/-- The `patterns` dict of source lines 122–126. -/
structure Patterns where
  problem_categories : List (String × List Learning)
  namespace_patterns : List (String × Nat)
  all_learnings : List String
deriving DecidableEq

/-- Models the `defaultdict(list)` update `d[k].append(v)`: append to the existing
entry, or create the key at the end with a one-element list. -/
def ddAppend (k : String) (v : Learning) :
    List (String × List Learning) → List (String × List Learning)
  | [] => [(k, [v])]
  | (k', vs) :: rest =>
    if k' = k then (k', vs ++ [v]) :: rest else (k', vs) :: ddAppend k v rest

/-- Models the `defaultdict(int)` update `d[k] += 1`: increment the existing entry,
or create the key at the end with count 1. -/
def ddInc (k : String) : List (String × Nat) → List (String × Nat)
  | [] => [(k, 1)]
  | (k', n) :: rest =>
    if k' = k then (k', n + 1) :: rest else (k', n) :: ddInc k rest

/-- The per-record body of the `for learning in learnings` loop
(source lines 128–140). -/
def patternsStep (p : Patterns) (l : Learning) : Patterns :=
  { problem_categories := ddAppend (_categorize_problem l) l p.problem_categories
    namespace_patterns := l.namespaces.foldl (fun m ns => ddInc ns m) p.namespace_patterns
    all_learnings := p.all_learnings ++ l.key_learnings }

/-- Embeds `SessionLearningExtractor.extract_patterns` (source lines 120–142). -/
def extract_patterns (learnings : List Learning) : Patterns :=
  learnings.foldl patternsStep ⟨[], [], []⟩

/-- Dict lookup into `problem_categories` with `[]` for a missing key. -/
def lookupCat : List (String × List Learning) → String → List Learning
  | [], _ => []
  | (k, vs) :: rest, c => if k = c then vs else lookupCat rest c

/-- Dict lookup into `namespace_patterns` with `0` for a missing key. -/
def lookupNs : List (String × Nat) → String → Nat
  | [], _ => 0
  | (k, i) :: rest, n => if k = n then i else lookupNs rest n

/-! ## Rendering

`SessionLearningExtractor.generate_knowledge_base_update`
(source lines 144–227). `datetime.now().strftime(...)` of line 147 is
the one impure input of the renderer and is passed in as `now`;
`list(set(patterns['all_learnings']))` of line 213 depends on the
per-process string hashing of the interpreter, so the enumeration
`setEnum` of the set of learnings is likewise passed in. -/

/-- Python `sorted(xs, key=k, reverse=True)` for a `Nat`-valued key:
stable descending insertion sort (a new element goes after existing
elements with an equal key). -/
def pyInsertRev {α : Type} (k : α → Nat) (a : α) : List α → List α
  | [] => [a]
  | b :: bs => if k b < k a then a :: b :: bs else b :: pyInsertRev k a bs

/-- Python `sorted(xs, key=k, reverse=True)`. -/
def pySortedRevBy {α : Type} (k : α → Nat) (xs : List α) : List α :=
  xs.foldl (fun acc a => pyInsertRev k a acc) []

/-- An f-string interpolation of a value that may be Python `None`
(`None` prints as `"None"`). -/
def fmtVal : Option String → String
  | some s => s
  | none => "None"

/-- Source lines 164–168: the per-record sub-block heading. The `'N/A'`
default of `learning.get('jira_ticket', 'N/A')` and the `'Unknown'`
default of `learning.get('date', 'Unknown')` never apply, because
`analyze_session` initialises both keys on every record (lines 24–35);
the stored value (possibly `None`) is what is tested and printed. -/
def headingChunk (l : Learning) : String :=
  match l.jira_ticket with
  | some t =>
    if t ≠ "" && t ≠ "Not specified" then "#### " ++ t ++ "\n"
    else "#### Session from " ++ fmtVal l.date ++ "\n"
  | none => "#### Session from " ++ fmtVal l.date ++ "\n"

/-- Source lines 171–175: problem description, truncated to 200
characters with an ellipsis only when longer; skipped when the field is
`None` or empty (Python truthiness). -/
def problemChunk (l : Learning) : String :=
  match l.problem_description with
  | some d =>
    if d = "" then ""
    else "\n**Problem:** " ++ pyTake 200 d ++ (if 200 < pyLen d then "..." else "") ++ "\n\n"
  | none => ""

/-- Source lines 178–182: root cause, truncated to 150 characters. -/
def rootCauseChunk (l : Learning) : String :=
  match l.root_cause with
  | some d =>
    if d = "" then ""
    else "**Root Cause:** " ++ pyTake 150 d ++ (if 150 < pyLen d then "..." else "") ++ "\n\n"
  | none => ""

/-- Source lines 185–189: solution, truncated to 150 characters. -/
def solutionChunk (l : Learning) : String :=
  match l.solution with
  | some d =>
    if d = "" then ""
    else "**Solution:** " ++ pyTake 150 d ++ (if 150 < pyLen d then "..." else "") ++ "\n\n"
  | none => ""

/-- Source lines 192–196: up to the first three modified resources. -/
def resourcesChunk (l : Learning) : String :=
  if l.resources_modified = [] then ""
  else
    "**Resources Modified:**\n" ++
      (l.resources_modified.take 3).foldl (fun md r => md ++ "- " ++ r ++ "\n") "" ++ "\n"

/-- Source lines 163–198: the sub-block for one record, ending in the
horizontal separator. -/
def incidentBlock (l : Learning) : String :=
  headingChunk l ++ problemChunk l ++ rootCauseChunk l ++ solutionChunk l ++
    resourcesChunk l ++ "---\n\n"

/-- Source lines 159–198: one category block. -/
def categoryBlock (p : String × List Learning) : String :=
  "### " ++ p.1 ++ "\n\n**Occurrences:** " ++ toString p.2.length ++ " session(s)\n\n" ++
    p.2.foldl (fun md l => md ++ incidentBlock l) ""

/-- Source lines 201–207: the namespace-activity block (top ten by
descending count, the stable sort of Python). -/
def namespaceBlock (p : Patterns) : String :=
  "## Namespace Activity Patterns\n\n" ++
    (if p.namespace_patterns = [] then "*No namespace data available yet*\n"
     else
       ((pySortedRevBy (fun x => x.2) p.namespace_patterns).take 10).foldl
         (fun md x => md ++ "- `" ++ x.1 ++ "`: " ++ toString x.2 ++ " incident(s)\n") "")

/-- Source lines 210–217: the key-learnings block. `setEnum` stands for
`list(set(·))`: the order in which CPython enumerates the set of
learning strings, fixed per process by the string hash seed. -/
def learningsBlock (setEnum : List String → List String) (p : Patterns) : String :=
  "\n## Key Learnings Across All Sessions\n\n" ++
    (if p.all_learnings = [] then "*No learnings captured yet*\n"
     else ((setEnum p.all_learnings).take 20).foldl (fun md s => md ++ "- " ++ s ++ "\n") "")

/-- Source lines 219–225: the fixed usage-guidance footer. -/
def footerBlock : String :=
  "\n---\n\n## How to Use This Knowledge Base\n\n" ++
    "When troubleshooting similar issues:\n" ++
    "1. Find your problem category above\n" ++
    "2. Review past root causes and solutions\n" ++
    "3. Apply similar fixes to your situation\n" ++
    "4. Check namespace-specific patterns\n\n"

/-- Everything `generate_knowledge_base_update` emits after the
timestamp interpolation of line 147: session statistics, the category
blocks sorted by descending record count (source lines 157–158, Python's
stable `sorted` with `reverse=True`), namespaces, learnings, footer. -/
def kbTail (setEnum : List String → List String) (patterns : Patterns)
    (learnings : List Learning) : String :=
  "\n\n## Session Statistics\n\nTotal Sessions Analyzed: " ++ toString learnings.length ++
    "\n\n## Problem Categories and Solutions\n\n" ++
    (pySortedRevBy (fun p => p.2.length) patterns.problem_categories).foldl
      (fun md p => md ++ categoryBlock p) "" ++
    namespaceBlock patterns ++ learningsBlock setEnum patterns ++ footerBlock

/-- Embeds `SessionLearningExtractor.generate_knowledge_base_update`
(source lines 144–227). -/
def generate_knowledge_base_update (setEnum : List String → List String) (now : String)
    (patterns : Patterns) (learnings : List Learning) : String :=
  "# K8s Troubleshooting Knowledge Base\nLast Updated: " ++ now ++
    kbTail setEnum patterns learnings

/-- The analysis/aggregation/rendering portion of `main`
(source lines 264–293), starting from the located artifact pairs:
parse every pair, extract patterns, render. -/
def mainPipeline (artifacts : List (Option String × Option String))
    (setEnum : List String → List String) (now : String) : String :=
  let learnings := artifacts.map fun a => analyze_session a.1 a.2
  generate_knowledge_base_update setEnum now (extract_patterns learnings) learnings

/-- The single legacy summary file of the end-to-end scenario. -/
def c9summary : String :=
  "Date: 2024-01-01\nJira Ticket: PROJ-1\nAffected Namespaces: ns-a ns-b\n"

/-- The record parsed from that summary (no learning report). -/
def c9record : Learning := analyze_session (some c9summary) none

/-- The timestamp-independent part of the end-to-end document. -/
def c9tail : String :=
  kbTail (fun xs => xs) (extract_patterns [c9record]) [c9record]

/-- A 201-character description, for the C7 witness. -/
def longDesc : String := String.mk (List.replicate 201 'x')

/-- Record with namespace tokens `["a","a","b"]`. -/
def nsRecA : Learning := { emptyLearning with namespaces := ["a", "a", "b"] }

/-- Record with namespace tokens `["a"]`. -/
def nsRecB : Learning := { emptyLearning with namespaces := ["a"] }

/-- Aggregate used to exhibit the set-enumeration nondeterminism: two
distinct key-learning strings. -/
def c3pat : Patterns := ⟨[], [], ["alpha", "beta"]⟩

/-- One possible CPython enumeration of `set(["alpha","beta"])`. -/
def c3enum1 : List String → List String := fun _ => ["alpha", "beta"]

/-- The other possible CPython enumeration of `set(["alpha","beta"])`
(realised under a different hash seed). -/
def c3enum2 : List String → List String := fun _ => ["beta", "alpha"]

/-! ## Helper lemmas -/

theorem strData_append (a b : String) : (a ++ b).data = a.data ++ b.data := rfl

theorem strExt {a b : String} (h : a.data = b.data) : a = b := by
  cases a
  cases b
  exact congrArg String.mk h

/-! ## C1 — classifier: ordered first-match rules, determinism -/

/-- C1: `_categorize_problem` concatenates the (possibly unset)
problem-description and root-cause texts, lower-cases them
(`combinedText`), and returns the category of the first matching
predicate of the ordered rule list `specRules` (first-match-wins);
in particular any combined text containing both `"oom"` and
`"crashloop"` classifies as `Memory / OOM Issues`, and identical
combined text always yields the identical category. -/
theorem c1_classifier_first_match :
    (∀ l, _categorize_problem l = applyRules specRules (combinedText l)) ∧
    (∀ l, pyIn "oom" (combinedText l) = true → pyIn "crashloop" (combinedText l) = true →
      _categorize_problem l = "Memory / OOM Issues") ∧
    (∀ l₁ l₂, combinedText l₁ = combinedText l₂ →
      _categorize_problem l₁ = _categorize_problem l₂) := by
  refine ⟨fun l => rfl, fun l h1 _ => ?_, fun l₁ l₂ h => ?_⟩
  · simp [_categorize_problem, h1]
  · simp only [_categorize_problem, h]

/-- C1 witness: a record whose text contains both `"oom"` and
`"crashloop"` is classified `Memory / OOM Issues`. -/
theorem c1_classifier_first_match_witness :
    _categorize_problem
      { emptyLearning with problem_description := some "oom then crashloop" } =
      "Memory / OOM Issues" :=
  c1_classifier_first_match.2.1 _ (by decide) (by decide)

/-! ## C10 — renderer heading when the ticket is absent -/

/-- C10: when `jira_ticket` is unset the sub-block heading is
`#### Session from <date value>`; since `analyze_session` always
populates the `date` key, the `'Unknown'` default of
`learning.get('date', 'Unknown')` never applies, and a record with
neither ticket nor date prints the absent value itself
(`None` → `"None"`), not `Unknown`. -/
theorem c10_heading_none_date :
    (∀ l, l.jira_ticket = none →
      headingChunk l = "#### Session from " ++ fmtVal l.date ++ "\n") ∧
    (∀ l, l.jira_ticket = none → l.date = none →
      headingChunk l = "#### Session from None\n") ∧
    hasSubL "Unknown".data "#### Session from None\n".data = false := by
  refine ⟨fun l h => ?_, fun l h hd => ?_, by decide⟩
  · simp [headingChunk, h]
  · simp [headingChunk, h, hd, fmtVal]

/-- C10 witness: the all-absent record renders the `None` heading. -/
theorem c10_heading_none_date_witness :
    headingChunk emptyLearning = "#### Session from None\n" :=
  c10_heading_none_date.2.1 emptyLearning rfl rfl

/-! ## C7 — rendering truncation budgets -/

/-- C7: the rendered problem description is cut to 200 characters and
root cause and solution to 150 each, with the ellipsis appended exactly
when the field is longer than its budget; a field within its budget is
rendered verbatim with no ellipsis, and a 201-character description is
cut to exactly its first 200 characters. -/
theorem c7_truncation_budgets :
    (∀ l d, l.problem_description = some d → 200 < pyLen d →
      problemChunk l = "\n**Problem:** " ++ pyTake 200 d ++ "...\n\n") ∧
    (∀ l d, l.problem_description = some d → d ≠ "" → pyLen d ≤ 200 →
      problemChunk l = "\n**Problem:** " ++ d ++ "\n\n") ∧
    (∀ d, pyLen d = 201 → pyLen (pyTake 200 d) = 200) ∧
    (∀ l d, l.root_cause = some d → 150 < pyLen d →
      rootCauseChunk l = "**Root Cause:** " ++ pyTake 150 d ++ "...\n\n") ∧
    (∀ l d, l.root_cause = some d → d ≠ "" → pyLen d ≤ 150 →
      rootCauseChunk l = "**Root Cause:** " ++ d ++ "\n\n") ∧
    (∀ l d, l.solution = some d → 150 < pyLen d →
      solutionChunk l = "**Solution:** " ++ pyTake 150 d ++ "...\n\n") ∧
    (∀ l d, l.solution = some d → d ≠ "" → pyLen d ≤ 150 →
      solutionChunk l = "**Solution:** " ++ d ++ "\n\n") := by
  have hne : ∀ (d : String) (n : Nat), n < pyLen d → d ≠ "" := by
    intro d n h e
    subst e
    simp [pyLen] at h
  have htake : ∀ (d : String) (n : Nat), pyLen d ≤ n → pyTake n d = d := by
    intro d n h
    apply strExt
    exact List.take_of_length_le h
  refine ⟨fun l d hd h => ?_, fun l d hd he h => ?_, fun d h => ?_,
    fun l d hd h => ?_, fun l d hd he h => ?_, fun l d hd h => ?_, fun l d hd he h => ?_⟩
  · apply strExt
    simp [problemChunk, hd, hne d 200 h, h, strData_append]
  · apply strExt
    simp [problemChunk, hd, he, Nat.not_lt.mpr h, htake d 200 h, strData_append]
  · simp only [pyLen, pyTake] at h ⊢
    rw [List.length_take, h]
    omega
  · apply strExt
    simp [rootCauseChunk, hd, hne d 150 h, h, strData_append]
  · apply strExt
    simp [rootCauseChunk, hd, he, Nat.not_lt.mpr h, htake d 150 h, strData_append]
  · apply strExt
    simp [solutionChunk, hd, hne d 150 h, h, strData_append]
  · apply strExt
    simp [solutionChunk, hd, he, Nat.not_lt.mpr h, htake d 150 h, strData_append]

set_option maxRecDepth 4000 in
/-- C7 witness: a 201-character description renders as its first 200
characters plus an ellipsis. -/
theorem c7_truncation_budgets_witness :
    problemChunk { emptyLearning with problem_description := some longDesc } =
      "\n**Problem:** " ++ pyTake 200 longDesc ++ "...\n\n" :=
  c7_truncation_budgets.1 _ longDesc rfl (by decide)

/-! ## C4 — parser totality and defaults -/

/-- C4: `analyze_session` is a total function into fully constructed
records: with both artifacts missing it returns the all-default record;
a missing summary leaves all metadata fields at their defaults and a
missing report leaves all section fields at theirs; and any individual
metadata line or named section that fails to match leaves exactly its
field at the default. -/
theorem c4_parser_total_defaults :
    (analyze_session none none = emptyLearning) ∧
    (∀ r, (analyze_session none r).date = none ∧
      (analyze_session none r).jira_ticket = none ∧
      (analyze_session none r).namespaces = []) ∧
    (∀ s, (analyze_session s none).problem_description = none ∧
      (analyze_session s none).investigation = none ∧
      (analyze_session s none).root_cause = none ∧
      (analyze_session s none).solution = none ∧
      (analyze_session s none).prevention = none ∧
      (analyze_session s none).resources_modified = [] ∧
      (analyze_session s none).key_learnings = []) ∧
    (∀ c r, searchMeta "Date:" c = none → (analyze_session (some c) r).date = none) ∧
    (∀ c r, searchMeta "Jira Ticket:" c = none →
      (analyze_session (some c) r).jira_ticket = none) ∧
    (∀ c r, searchMeta "Affected Namespaces:" c = none →
      (analyze_session (some c) r).namespaces = []) ∧
    (∀ s c, _extract_section c "Problem Description" = none →
      (analyze_session s (some c)).problem_description = none) ∧
    (∀ s c, _extract_section c "Root Cause" = none →
      (analyze_session s (some c)).root_cause = none) ∧
    (∀ s c, _extract_section c "Resources Modified" = none →
      (analyze_session s (some c)).resources_modified = []) ∧
    (∀ s c, _extract_section c "Key Learnings" = none →
      (analyze_session s (some c)).key_learnings = []) := by
  refine ⟨rfl, fun r => ?_, fun s => ?_, fun c r h => ?_, fun c r h => ?_, fun c r h => ?_,
    fun s c h => ?_, fun s c h => ?_, fun s c h => ?_, fun s c h => ?_⟩
  · cases r <;> simp [analyze_session, emptyLearning]
  · cases s <;> simp [analyze_session, parseSummary, emptyLearning]
  · cases r <;> simp [analyze_session, parseSummary, h]
  · cases r <;> simp [analyze_session, parseSummary, h]
  · cases r <;> simp [analyze_session, parseSummary, h]
  · cases s <;> simp [analyze_session, parseSummary, h]
  · cases s <;> simp [analyze_session, parseSummary, h]
  · cases s <;> simp [analyze_session, parseSummary, h]
  · cases s <;> simp [analyze_session, parseSummary, h]

/-- C4 witness: on a summary with no recognizable metadata and a report
with no headings, every field is at its default. -/
theorem c4_parser_total_defaults_witness :
    (analyze_session (some "hello") none).date = none ∧
    (analyze_session none (some "plain text")).root_cause = none :=
  ⟨c4_parser_total_defaults.2.2.2.1 "hello" none (by decide),
   c4_parser_total_defaults.2.2.2.2.2.2.2.1 none "plain text" (by decide)⟩

/-! ## C5 — aggregation: order, counts, flattening -/

theorem lookupCat_ddAppend (k : String) (v : Learning) (m : List (String × List Learning))
    (c : String) :
    lookupCat (ddAppend k v m) c = lookupCat m c ++ if k = c then [v] else [] := by
  induction m with
  | nil => by_cases h : k = c <;> simp [ddAppend, lookupCat, h]
  | cons p rest ih =>
    obtain ⟨k', vs⟩ := p
    by_cases h : k' = k
    · subst h
      by_cases h2 : k' = c
      · subst h2
        simp [ddAppend, lookupCat]
      · simp [ddAppend, lookupCat, h2]
    · by_cases h2 : k' = c
      · subst h2
        have h3 : ¬ k = k' := fun e => h e.symm
        simp [ddAppend, lookupCat, h, h3]
      · simp [ddAppend, lookupCat, h, h2, ih]

theorem lookupNs_ddInc (k : String) (m : List (String × Nat)) (n : String) :
    lookupNs (ddInc k m) n = lookupNs m n + if k = n then 1 else 0 := by
  induction m with
  | nil => by_cases h : k = n <;> simp [ddInc, lookupNs, h]
  | cons p rest ih =>
    obtain ⟨k', i⟩ := p
    by_cases h : k' = k
    · subst h
      by_cases h2 : k' = n
      · subst h2
        simp [ddInc, lookupNs]
      · simp [ddInc, lookupNs, h2]
    · by_cases h2 : k' = n
      · subst h2
        have h3 : ¬ k = k' := fun e => h e.symm
        simp [ddInc, lookupNs, h, h3]
      · simp [ddInc, lookupNs, h, h2, ih]

theorem lookupNs_foldl_ns (ns : List String) : ∀ (m : List (String × Nat)) (n : String),
    lookupNs (ns.foldl (fun m k => ddInc k m) m) n = lookupNs m n + ns.count n := by
  induction ns with
  | nil => simp
  | cons k ns ih =>
    intro m n
    rw [List.foldl_cons, ih, lookupNs_ddInc, List.count_cons]
    by_cases h : k = n
    · simp [h]
      omega
    · simp [h]

theorem lookupCat_patterns_foldl (ls : List Learning) : ∀ (p : Patterns) (c : String),
    lookupCat (ls.foldl patternsStep p).problem_categories c =
      lookupCat p.problem_categories c ++ ls.filter (fun l => _categorize_problem l == c) := by
  induction ls with
  | nil => simp
  | cons l ls ih =>
    intro p c
    rw [List.foldl_cons, ih, List.filter_cons]
    rw [show (patternsStep p l).problem_categories =
      ddAppend (_categorize_problem l) l p.problem_categories from rfl]
    rw [lookupCat_ddAppend]
    by_cases h : _categorize_problem l = c <;> simp [h, List.append_assoc]

theorem lookupNs_patterns_foldl (ls : List Learning) : ∀ (p : Patterns) (n : String),
    lookupNs (ls.foldl patternsStep p).namespace_patterns n =
      lookupNs p.namespace_patterns n + (ls.map (fun l => l.namespaces.count n)).sum := by
  induction ls with
  | nil => simp
  | cons l ls ih =>
    intro p n
    rw [List.foldl_cons, ih]
    rw [show (patternsStep p l).namespace_patterns =
      l.namespaces.foldl (fun m k => ddInc k m) p.namespace_patterns from rfl]
    rw [lookupNs_foldl_ns]
    simp
    omega

theorem allLearnings_patterns_foldl (ls : List Learning) : ∀ (p : Patterns),
    (ls.foldl patternsStep p).all_learnings =
      p.all_learnings ++ (ls.map Learning.key_learnings).flatten := by
  induction ls with
  | nil => simp
  | cons l ls ih =>
    intro p
    rw [List.foldl_cons, ih]
    simp [patternsStep, List.append_assoc]

/-- C5: aggregation is a single order-preserving pass — each category's
record list is exactly the input-order sublist of records classified to
it; the count of a namespace is the total number of its occurrences
across all records (duplicates included); the key-learnings collection
is the in-order flattening; a record with an empty namespace list
leaves the counts untouched; and for the corpus with namespace tokens
`["a","a","b"]` and `["a"]` the counts are `a ↦ 3`, `b ↦ 1`. -/
theorem c5_aggregation_order_counts :
    (∀ ls c, lookupCat (extract_patterns ls).problem_categories c =
      ls.filter (fun l => _categorize_problem l == c)) ∧
    (∀ ls n, lookupNs (extract_patterns ls).namespace_patterns n =
      (ls.map (fun l => l.namespaces.count n)).sum) ∧
    (∀ ls, (extract_patterns ls).all_learnings = (ls.map Learning.key_learnings).flatten) ∧
    (∀ ls l, l.namespaces = [] →
      (extract_patterns (ls ++ [l])).namespace_patterns =
        (extract_patterns ls).namespace_patterns) ∧
    lookupNs (extract_patterns [nsRecA, nsRecB]).namespace_patterns "a" = 3 ∧
    lookupNs (extract_patterns [nsRecA, nsRecB]).namespace_patterns "b" = 1 := by
  refine ⟨fun ls c => ?_, fun ls n => ?_, fun ls => ?_, fun ls l h => ?_, by decide, by decide⟩
  · rw [extract_patterns, lookupCat_patterns_foldl]
    simp [lookupCat]
  · rw [extract_patterns, lookupNs_patterns_foldl]
    simp [lookupNs]
  · rw [extract_patterns, allLearnings_patterns_foldl]
    simp
  · rw [extract_patterns, extract_patterns, List.foldl_append]
    rw [show ∀ q, (List.foldl patternsStep q [l]) = patternsStep q l from fun q => rfl]
    rw [show ∀ q, (patternsStep q l).namespace_patterns =
      l.namespaces.foldl (fun m k => ddInc k m) q.namespace_patterns from fun q => rfl]
    rw [h]
    rfl

/-- C5 witness: a record with an empty namespace list contributes
nothing to the namespace counts. -/
theorem c5_aggregation_order_counts_witness :
    (extract_patterns ([nsRecA] ++ [emptyLearning])).namespace_patterns =
      (extract_patterns [nsRecA]).namespace_patterns :=
  c5_aggregation_order_counts.2.2.2.1 [nsRecA] emptyLearning rfl

/-! ## C6 — category blocks sorted by descending count, stable ties

Properties of `pySortedRevBy`, the embedding of the
`sorted(..., key=lambda x: len(x[1]), reverse=True)` call that
`kbTail` folds the category blocks over (source lines 157–158). -/

theorem pyInsertRev_perm {α : Type} (k : α → Nat) (a : α) (l : List α) :
    (pyInsertRev k a l).Perm (a :: l) := by
  induction l with
  | nil => simp [pyInsertRev]
  | cons b bs ih =>
    by_cases h : k b < k a
    · simp [pyInsertRev, h]
    · simp only [pyInsertRev, if_neg h]
      exact (ih.cons b).trans (List.Perm.swap a b bs)

theorem pyInsertRev_pairwise {α : Type} (k : α → Nat) (a : α) {l : List α}
    (h : l.Pairwise fun x y => k y ≤ k x) :
    (pyInsertRev k a l).Pairwise fun x y => k y ≤ k x := by
  induction l with
  | nil => simp [pyInsertRev]
  | cons b bs ih =>
    rcases List.pairwise_cons.mp h with ⟨hb, hbs⟩
    by_cases hlt : k b < k a
    · simp only [pyInsertRev, if_pos hlt]
      refine List.pairwise_cons.mpr ⟨?_, h⟩
      intro x hx
      rcases List.mem_cons.mp hx with rfl | hx
      · exact Nat.le_of_lt hlt
      · exact Nat.le_trans (hb x hx) (Nat.le_of_lt hlt)
    · simp only [pyInsertRev, if_neg hlt]
      refine List.pairwise_cons.mpr ⟨?_, ih hbs⟩
      intro x hx
      rcases List.mem_cons.mp ((pyInsertRev_perm k a bs).subset hx) with rfl | hx2
      · exact Nat.not_lt.mp hlt
      · exact hb x hx2

theorem pyInsertRev_filter {α : Type} (k : α → Nat) (a : α) (n : Nat) {l : List α}
    (hs : l.Pairwise fun x y => k y ≤ k x) :
    (pyInsertRev k a l).filter (fun x => k x == n) =
      if k a = n then l.filter (fun x => k x == n) ++ [a]
      else l.filter (fun x => k x == n) := by
  induction l with
  | nil => by_cases h : k a = n <;> simp [pyInsertRev, h]
  | cons b bs ih =>
    rcases List.pairwise_cons.mp hs with ⟨hb, hbs⟩
    by_cases hlt : k b < k a
    · simp only [pyInsertRev, if_pos hlt]
      by_cases h : k a = n
      · have hnil : (b :: bs).filter (fun x => k x == n) = [] := by
          rw [List.filter_eq_nil_iff]
          intro x hx
          have : k x ≤ k b := by
            rcases List.mem_cons.mp hx with rfl | hx2
            · exact Nat.le_refl _
            · exact hb x hx2
          simp only [beq_iff_eq]
          omega
        simp [h, hnil]
      · simp [h, hlt]
    · simp only [pyInsertRev, if_neg hlt]
      by_cases h : k a = n <;> by_cases h2 : k b = n <;>
        simp [List.filter_cons, h, h2, ih hbs]

theorem pySortedRevBy_foldl_perm {α : Type} (k : α → Nat) :
    ∀ (xs acc : List α), (xs.foldl (fun acc a => pyInsertRev k a acc) acc).Perm (acc ++ xs) := by
  intro xs
  induction xs with
  | nil => simp
  | cons x xs ih =>
    intro acc
    rw [List.foldl_cons]
    refine (ih (pyInsertRev k x acc)).trans ?_
    refine (((pyInsertRev_perm k x acc).append_right xs).trans ?_)
    exact List.perm_middle.symm

theorem pySortedRevBy_foldl_pairwise {α : Type} (k : α → Nat) :
    ∀ (xs acc : List α), (acc.Pairwise fun x y => k y ≤ k x) →
      (xs.foldl (fun acc a => pyInsertRev k a acc) acc).Pairwise fun x y => k y ≤ k x := by
  intro xs
  induction xs with
  | nil => exact fun acc h => h
  | cons x xs ih =>
    intro acc h
    rw [List.foldl_cons]
    exact ih _ (pyInsertRev_pairwise k x h)

theorem pySortedRevBy_foldl_filter {α : Type} (k : α → Nat) (n : Nat) :
    ∀ (xs acc : List α), (acc.Pairwise fun x y => k y ≤ k x) →
      (xs.foldl (fun acc a => pyInsertRev k a acc) acc).filter (fun x => k x == n) =
        acc.filter (fun x => k x == n) ++ xs.filter (fun x => k x == n) := by
  intro xs
  induction xs with
  | nil => simp
  | cons x xs ih =>
    intro acc h
    rw [List.foldl_cons, ih _ (pyInsertRev_pairwise k x h), pyInsertRev_filter k x n h,
      List.filter_cons]
    by_cases hx : k x = n <;> simp [hx, List.append_assoc]

/-- C6: the list `kbTail` renders the category blocks over —
`pySortedRevBy (fun p => p.2.length) cats`, the embedding of Python's
stable `sorted(..., key=len, reverse=True)` at source lines 157–158 —
is a permutation of the aggregated categories, its record counts are
non-increasing, and the categories with any given count keep their
first-discovered (insertion) order. -/
theorem c6_category_order_stable_desc :
    ∀ cats : List (String × List Learning),
      (pySortedRevBy (fun p => p.2.length) cats).Perm cats ∧
      ((pySortedRevBy (fun p => p.2.length) cats).Pairwise fun a b =>
        b.2.length ≤ a.2.length) ∧
      ∀ n, (pySortedRevBy (fun p => p.2.length) cats).filter (fun p => p.2.length == n) =
        cats.filter (fun p => p.2.length == n) := by
  intro cats
  refine ⟨?_, ?_, fun n => ?_⟩
  · simpa using pySortedRevBy_foldl_perm (fun p => p.2.length) cats []
  · exact pySortedRevBy_foldl_pairwise (fun p => p.2.length) cats [] (by simp)
  · simpa using pySortedRevBy_foldl_filter (fun p => p.2.length) n cats [] (by simp)

/-! ## C3 — renderer determinism -/

set_option maxRecDepth 8000 in
/-- C3 counterexample: the claim that identical statistics, records and
current-time value force identical documents — i.e. that time is the
only non-deterministic input of the renderer — is false: the renderer also
depends on the order in which `list(set(patterns['all_learnings']))`
enumerates the learnings set (line 213), which the hash seed, not the
caller, fixes. Both `c3enum1` and `c3enum2` are duplicate-free
enumerations of exactly the set of learnings of `c3pat`, yet the two
documents differ at the same stats, records and time. -/
theorem c3_counterexample :
    (c3enum1 c3pat.all_learnings).Nodup ∧
    (c3enum2 c3pat.all_learnings).Nodup ∧
    (∀ x, x ∈ c3enum1 c3pat.all_learnings ↔ x ∈ c3pat.all_learnings) ∧
    (∀ x, x ∈ c3enum2 c3pat.all_learnings ↔ x ∈ c3pat.all_learnings) ∧
    generate_knowledge_base_update c3enum1 "T" c3pat [] ≠
      generate_knowledge_base_update c3enum2 "T" c3pat [] := by
  refine ⟨by decide, by decide, fun x => Iff.rfl, fun x => ?_, by decide⟩
  simp [c3enum2, c3pat, or_comm]

/-- C3 (amended): the renderer is deterministic in its inputs plus the
two ambient values the code actually samples — the current time of
line 147 (taken from `datetime.now()` inside the renderer, not injected
by callers) and the per-process set-enumeration order of line 213: two
invocations on identical statistics, record lists and time whose
set-enumerations agree on the learnings collection produce identical
documents. -/
theorem c3_render_determinism_amended :
    ∀ (e1 e2 : List String → List String) (now : String) (p : Patterns)
      (ls : List Learning),
      e1 p.all_learnings = e2 p.all_learnings →
      generate_knowledge_base_update e1 now p ls =
        generate_knowledge_base_update e2 now p ls := by
  intro e1 e2 now p ls h
  simp only [generate_knowledge_base_update, kbTail, learningsBlock, h]

/-- C3 witness: the amended determinism at concrete inputs. -/
theorem c3_render_determinism_amended_witness :
    generate_knowledge_base_update c3enum1 "T" c3pat [] =
      generate_knowledge_base_update (fun _ => ["alpha", "beta"]) "T" c3pat [] :=
  c3_render_determinism_amended c3enum1 (fun _ => ["alpha", "beta"]) "T" c3pat [] rfl

/-! ## C9 — end-to-end scenario -/

set_option maxRecDepth 8000 in
/-- C9: running the pipeline on the single legacy summary
`k8s-session-summary-2024.txt` (content `c9summary`, no paired learning
report — the locator pairs none, as there is no session directory) for
any timestamp yields the fixed document tail `c9tail` after the
timestamp, and that tail contains exactly one category block, titled
`Configuration Issues` (the default fallback), exactly one record
sub-block, headed `PROJ-1`, and the namespace lines
`ns-a: 1 incident(s)` and `ns-b: 1 incident(s)`. -/
theorem c9_end_to_end_scenario :
    ∀ (setEnum : List String → List String) (now : String),
      mainPipeline [(some c9summary, none)] setEnum now =
        "# K8s Troubleshooting Knowledge Base\nLast Updated: " ++ now ++ c9tail ∧
      countSubS "\n### " c9tail = 1 ∧
      pyIn "\n### Configuration Issues\n" c9tail = true ∧
      countSubS "\n#### " c9tail = 1 ∧
      pyIn "\n#### PROJ-1\n" c9tail = true ∧
      pyIn "- `ns-a`: 1 incident(s)\n" c9tail = true ∧
      pyIn "- `ns-b`: 1 incident(s)\n" c9tail = true := by
  intro setEnum now
  exact ⟨rfl, by decide, by decide, by decide, by decide, by decide, by decide⟩

/-! ## C2 — section extraction -/

theorem nlHH_cons₃ (a b c : Char) (l : List Char) :
    nlHH (a :: b :: c :: l) = (a == '\n' && b == '#' && c == '#') := rfl

theorem nlHH_append_nl (a : Char) (as r : List Char) (h : nlHH (a :: as) = false) :
    nlHH (a :: as ++ '\n' :: r) = false := by
  match as with
  | [] =>
    cases r with
    | nil => rfl
    | cons c r2 =>
      rw [show a :: [] ++ '\n' :: c :: r2 = a :: '\n' :: c :: r2 from rfl, nlHH_cons₃]
      simp [show ('\n' == '#') = false from rfl]
  | [b] =>
    rw [show a :: [b] ++ '\n' :: r = a :: b :: '\n' :: r from rfl, nlHH_cons₃]
    simp [show ('\n' == '#') = false from rfl]
  | b :: c :: as2 =>
    rw [nlHH_cons₃] at h
    rw [show a :: (b :: c :: as2) ++ '\n' :: r = a :: b :: c :: (as2 ++ '\n' :: r) from rfl,
      nlHH_cons₃]
    exact h

theorem takeUntilStop_append (t r : List Char) (h : hasNlHH t = false) :
    takeUntilStop (t ++ '\n' :: '#' :: '#' :: r) = t := by
  induction t with
  | nil => rfl
  | cons a as ih =>
    simp only [hasNlHH, Bool.or_eq_false_iff] at h
    have hc : nlHH (a :: as ++ '\n' :: '#' :: '#' :: r) = false :=
      nlHH_append_nl a as ('#' :: '#' :: r) h.1
    simp only [List.cons_append] at hc ⊢
    rw [takeUntilStop, if_neg (by simp [hc]), ih h.2]

theorem wsNl_cons (c : Char) (l : List Char) (h : pyWs c = false) :
    wsNl ('\n' :: c :: l) = some (c :: l) := by
  have h1 : ('\n' :: c :: l).takeWhile pyWs = ['\n'] := by
    rw [List.takeWhile_cons, if_pos (show pyWs '\n' = true from rfl),
      List.takeWhile_cons, if_neg (by simp [h])]
  simp [wsNl, h1]

theorem sectionMatchAt_rcHdr (z : List Char) :
    sectionMatchAt "Root Cause".data ("## Root Cause\n".data ++ z) =
      capResult (wsNl ('\n' :: z)) := rfl

theorem searchSection_of_matchAt {name s : List Char} {cap : List Char}
    (h : sectionMatchAt name s = some cap) : searchSection name s = some cap := by
  cases s with
  | nil => exact absurd h (by simp [sectionMatchAt, dropLit])
  | cons a l => simp [searchSection, h]

theorem dropLit_hh_none (s : List Char) (h : startsWithL ['#', '#'] s = false) :
    dropLit ['#', '#'] s = none := by
  cases s with
  | nil => rfl
  | cons a l =>
    cases l with
    | nil =>
      by_cases ha : '#' = a
      · simp [dropLit, ha]
      · simp [dropLit, ha]
    | cons b l2 =>
      simp only [startsWithL, Bool.and_eq_false_iff] at h
      by_cases ha : '#' = a
      · subst ha
        by_cases hb : '#' = b
        · subst hb
          simp [startsWithL] at h
        · simp [dropLit, hb]
      · simp [dropLit, ha]

theorem searchSection_none (name : List Char) :
    ∀ s, hasSubL ['#', '#'] s = false → searchSection name s = none := by
  intro s
  induction s with
  | nil => intro _; rfl
  | cons a l ih =>
    intro h
    simp only [hasSubL, Bool.or_eq_false_iff] at h
    have hm : sectionMatchAt name (a :: l) = none := by
      rw [sectionMatchAt, dropLit_hh_none (a :: l) h.1]
    simp [searchSection, hm, ih h.2]

/-- C2 counterexample: the claim — the extracted body runs up to the
next second-level heading — is false: for the report
`## Root Cause\nA\n### Sub\nB\n## Next\nC` the next second-level
(`## `) heading is `## Next`, so the body the claim expects is
`A\n### Sub\nB`; but the regex lookahead `(?=\n##|\Z)` stops at the
first line merely beginning `##`, here the third-level `### Sub`
heading, and the code extracts just `A`. -/
theorem c2_counterexample :
    (analyze_session none
        (some "## Root Cause\nA\n### Sub\nB\n## Next\nC")).root_cause = some "A" ∧
    ("A" : String) ≠ "A\n### Sub\nB" :=
  ⟨by decide, by decide⟩

/-- C2 (amended): the section body the code extracts stops at the next
line beginning with `##` — including `###` headings and non-heading
`##x` lines — not only at `## `-headings. For any report of the shape
`## Root Cause\n<body>\n##<anything>` whose body is nonempty, does not
begin with a whitespace character and contains no `\n##` occurrence,
the extracted root cause is the body trimmed; and a report containing
no `##` at all has every section field unset. -/
theorem c2_section_extraction_amended :
    (∀ (c : Char) (t : List Char) (rest : String), pyWs c = false →
      hasNlHH (c :: t) = false →
      _extract_section ("## Root Cause\n" ++ String.mk (c :: t) ++ "\n##" ++ rest)
          "Root Cause" =
        some (String.mk (pyStrip (c :: t)))) ∧
    (∀ (content name : String), hasSubL ['#', '#'] content.data = false →
      _extract_section content name = none) := by
  constructor
  · intro c t rest hc ht
    have ht2 : hasNlHH t = false := by
      simp only [hasNlHH, Bool.or_eq_false_iff] at ht
      exact ht.2
    have hdata : ("## Root Cause\n" ++ String.mk (c :: t) ++ "\n##" ++ rest).data =
        "## Root Cause\n".data ++ ((c :: t) ++ ('\n' :: '#' :: '#' :: rest.data)) := by
      simp [strData_append, List.append_assoc]
    have hm : sectionMatchAt "Root Cause".data
        ("## Root Cause\n".data ++ ((c :: t) ++ ('\n' :: '#' :: '#' :: rest.data))) =
          some (c :: t) := by
      rw [sectionMatchAt_rcHdr]
      rw [show ('\n' :: ((c :: t) ++ ('\n' :: '#' :: '#' :: rest.data))) =
        '\n' :: c :: (t ++ ('\n' :: '#' :: '#' :: rest.data)) from rfl]
      rw [wsNl_cons c _ hc]
      rw [show capResult (some (c :: (t ++ ('\n' :: '#' :: '#' :: rest.data)))) =
        some (c :: takeUntilStop (t ++ ('\n' :: '#' :: '#' :: rest.data))) from rfl]
      rw [takeUntilStop_append t rest.data ht2]
    simp only [_extract_section, hdata]
    rw [searchSection_of_matchAt hm]
    rfl
  · intro content name h
    simp only [_extract_section]
    rw [searchSection_none name.data content.data h]
    rfl

/-- C2 witness: the amended extraction and the absent-heading default at
concrete inputs. -/
theorem c2_section_extraction_amended_witness :
    _extract_section ("## Root Cause\n" ++ String.mk ['B', 'a', 'd'] ++ "\n##" ++ " Next\n")
        "Root Cause" =
      some (String.mk (pyStrip ['B', 'a', 'd'])) ∧
    _extract_section "no headings here" "Root Cause" = none :=
  ⟨c2_section_extraction_amended.1 'B' ['a', 'd'] " Next\n" (by decide) (by decide),
   c2_section_extraction_amended.2 "no headings here" "Root Cause" (by decide)⟩

/-! ## C8 — bullet-list extraction -/

/-- C8 counterexample: the claim — each entry is the line with the
bullet marker and surrounding whitespace stripped — is false: for the
bullet line `- foo -` that reading gives `foo -`, but
`line.strip('- ').strip()` removes `-` and space characters from BOTH
ends, so the code stores `foo`. -/
theorem c8_counterexample :
    (analyze_session none
        (some "## Resources Modified\n- foo -\n")).resources_modified = ["foo"] ∧
    ("foo" : String) ≠ "foo -" :=
  ⟨by decide, by decide⟩

/-- C8 (amended): for every Resources Modified or Key Learnings section
body, the extracted list is exactly the lines whose whitespace-trimmed
form starts with `-`, in source order, each entry being the line with
all leading AND trailing `-` and space characters removed
(`line.strip('- ')`) and then whitespace-trimmed; an absent section
leaves the list empty. -/
theorem c8_bullet_lines_amended :
    (∀ s r sec, _extract_section r "Resources Modified" = some sec → sec ≠ "" →
      (analyze_session s (some r)).resources_modified =
        ((splitNl sec.data).filter fun ln => startsWithL ['-'] (pyStrip ln)).map
          fun ln => String.mk (pyStrip (stripDashSp ln))) ∧
    (∀ s r, _extract_section r "Resources Modified" = none →
      (analyze_session s (some r)).resources_modified = []) ∧
    (∀ s r sec, _extract_section r "Key Learnings" = some sec → sec ≠ "" →
      (analyze_session s (some r)).key_learnings =
        ((splitNl sec.data).filter fun ln => startsWithL ['-'] (pyStrip ln)).map
          fun ln => String.mk (pyStrip (stripDashSp ln))) ∧
    (∀ s r, _extract_section r "Key Learnings" = none →
      (analyze_session s (some r)).key_learnings = []) := by
  refine ⟨fun s r sec h hne => ?_, fun s r h => ?_, fun s r sec h hne => ?_,
    fun s r h => ?_⟩
  · cases s <;> simp [analyze_session, parseSummary, h, hne, bulletItems]
  · cases s <;> simp [analyze_session, parseSummary, h]
  · cases s <;> simp [analyze_session, parseSummary, h, hne, bulletItems]
  · cases s <;> simp [analyze_session, parseSummary, h]

/-- C8 witness: the amended bullet extraction at a concrete report. -/
theorem c8_bullet_lines_amended_witness :
    (analyze_session none (some "## Resources Modified\n- a\nplain\n- b\n")).resources_modified =
      ((splitNl ("- a\nplain\n- b" : String).data).filter
          fun ln => startsWithL ['-'] (pyStrip ln)).map
        fun ln => String.mk (pyStrip (stripDashSp ln)) :=
  c8_bullet_lines_amended.1 none "## Resources Modified\n- a\nplain\n- b\n" "- a\nplain\n- b"
    (by decide) (by decide)
